import Mathlib

/-!
Verification development for the mqtt-dmx-sequencer repository.

The Python sources are shallowly embedded: stateful methods become pure
functions over explicit state records, Python `dict`s become ordered
association lists with Python's insertion/update semantics, Python
numbers become `Int`/`Rat`, and fallible code returns `Option`/`Except`.
Each definition is translated from the corresponding function in
`dmx_senders.py` or `main.py`; the doc comments name the source.
-/

namespace DMXSeq

/-! ## Universe frame (dmx_senders.py, class DMXSender)

`self.universe_data = [0] * 512` is the frame; `set_channel`,
`set_channels` and `blackout` are its only mutators.
-/

/-- `DMXSender.__init__`: `self.universe_data = [0] * 512`. -/
def initFrame : List Int := List.replicate 512 0

/-- `DMXSender.set_channel` (dmx_senders.py lines 35-49): the write happens
only when `1 <= channel <= 512 and 0 <= value <= 255`; otherwise the frame
is left untouched. -/
def set_channel (frame : List Int) (channel value : Int) : List Int :=
  if 1 ≤ channel ∧ channel ≤ 512 ∧ 0 ≤ value ∧ value ≤ 255 then
    frame.set (channel - 1).toNat value
  else
    frame

/-- `DMXSender.set_channels` (dmx_senders.py lines 51-68): iterates the
given channel→value pairs in order; each pair is guarded by the same
range check as `set_channel` and an out-of-range pair is skipped. -/
def set_channels (frame : List Int) (writes : List (Int × Int)) : List Int :=
  writes.foldl (fun f w => set_channel f w.1 w.2) frame

/-- Frame effect of `DMXSender.blackout` (dmx_senders.py line 73):
`self.universe_data = [0] * 512`. The emission the method also performs is
modelled separately on `SenderState`. -/
def blackoutFrame (_frame : List Int) : List Int := List.replicate 512 0

/-- A mutation of the universe frame through one of the controlled entry
points. -/
inductive FrameOp where
  | setOne (channel value : Int)
  | setMany (writes : List (Int × Int))
  | black
deriving Repr

def applyOp (f : List Int) : FrameOp → List Int
  | .setOne ch v => set_channel f ch v
  | .setMany ws => set_channels f ws
  | .black => blackoutFrame f

def applyOps (ops : List FrameOp) (f : List Int) : List Int :=
  ops.foldl applyOp f

/-- The invariant of the universe frame: exactly 512 entries, each an
octet in [0,255]. -/
def FrameOK (f : List Int) : Prop :=
  f.length = 512 ∧ ∀ v ∈ f, 0 ≤ v ∧ v ≤ 255

lemma frameOK_init : FrameOK initFrame := by
  constructor
  · exact List.length_replicate 512 0
  · intro v hv
    rcases List.eq_of_mem_replicate hv with rfl
    exact ⟨le_refl 0, by norm_num⟩

lemma frameOK_set_channel (f : List Int) (ch v : Int) (h : FrameOK f) :
    FrameOK (set_channel f ch v) := by
  unfold set_channel
  split
  · rename_i hok
    refine ⟨by simpa using h.1, ?_⟩
    intro x hx
    rcases List.mem_or_eq_of_mem_set hx with hmem | rfl
    · exact h.2 x hmem
    · exact ⟨hok.2.2.1, hok.2.2.2⟩
  · exact h

lemma frameOK_set_channels (f : List Int) (ws : List (Int × Int)) (h : FrameOK f) :
    FrameOK (set_channels f ws) := by
  induction ws generalizing f with
  | nil => simpa [set_channels] using h
  | cons w rest ih =>
      have : set_channels f (w :: rest) = set_channels (set_channel f w.1 w.2) rest := rfl
      rw [this]
      exact ih _ (frameOK_set_channel f w.1 w.2 h)

lemma frameOK_blackout (f : List Int) : FrameOK (blackoutFrame f) := frameOK_init

lemma frameOK_applyOp (f : List Int) (op : FrameOp) (h : FrameOK f) :
    FrameOK (applyOp f op) := by
  cases op with
  | setOne ch v => exact frameOK_set_channel f ch v h
  | setMany ws => exact frameOK_set_channels f ws h
  | black => exact frameOK_blackout f

lemma frameOK_applyOps (ops : List FrameOp) (f : List Int) (h : FrameOK f) :
    FrameOK (applyOps ops f) := by
  induction ops generalizing f with
  | nil => simpa [applyOps] using h
  | cons op rest ih =>
      have : applyOps (op :: rest) f = applyOps rest (applyOp f op) := rfl
      rw [this]
      exact ih _ (frameOK_applyOp f op h)

lemma set_channel_invalid (f : List Int) (ch v : Int)
    (h : ¬(1 ≤ ch ∧ ch ≤ 512 ∧ 0 ≤ v ∧ v ≤ 255)) :
    set_channel f ch v = f := by
  simp [set_channel, h]

lemma set_channels_all_invalid (f : List Int) (ws : List (Int × Int))
    (h : ∀ w ∈ ws, ¬(1 ≤ w.1 ∧ w.1 ≤ 512 ∧ 0 ≤ w.2 ∧ w.2 ≤ 255)) :
    set_channels f ws = f := by
  induction ws generalizing f with
  | nil => rfl
  | cons w rest ih =>
      have hstep : set_channels f (w :: rest) = set_channels (set_channel f w.1 w.2) rest := rfl
      rw [hstep, set_channel_invalid f w.1 w.2 (h w (List.mem_cons_self w rest))]
      exact ih f (fun x hx => h x (List.mem_cons_of_mem w hx))

/-- C1: the universe frame, mutated only through `set_channel`,
`set_channels` and `blackout`, always holds exactly 512 values each in
[0,255]; an out-of-range write is dropped and leaves every channel of the
frame unchanged. -/
theorem universe_frame_invariant :
    (∀ ops : List FrameOp, FrameOK (applyOps ops initFrame)) ∧
    (∀ (f : List Int) (ops : List FrameOp), FrameOK f → FrameOK (applyOps ops f)) ∧
    (∀ (f : List Int) (ch v : Int),
      ¬(1 ≤ ch ∧ ch ≤ 512 ∧ 0 ≤ v ∧ v ≤ 255) → set_channel f ch v = f) ∧
    (∀ (f : List Int) (ws : List (Int × Int)),
      (∀ w ∈ ws, ¬(1 ≤ w.1 ∧ w.1 ≤ 512 ∧ 0 ≤ w.2 ∧ w.2 ≤ 255)) →
      set_channels f ws = f) := by
  refine ⟨fun ops => frameOK_applyOps ops initFrame frameOK_init,
          fun f ops h => frameOK_applyOps ops f h,
          set_channel_invalid, set_channels_all_invalid⟩

/-- Witness for `universe_frame_invariant` at concrete inputs: a channel-0
write and a value-256 write are both dropped, and a small op sequence
keeps the invariant. -/
theorem universe_frame_invariant_witness :
    FrameOK (applyOps [.setOne 3 255, .setMany [(0, 7), (513, 7), (2, 256)], .black] initFrame) ∧
    set_channel initFrame 0 7 = initFrame ∧
    set_channels initFrame [(0, 7), (513, 7), (2, 256)] = initFrame := by
  refine ⟨universe_frame_invariant.1 _,
          universe_frame_invariant.2.2.1 _ 0 7 (by decide),
          universe_frame_invariant.2.2.2 _ _ ?_⟩
  intro w hw
  fin_cases hw <;> decide

/-! ## Sender emission (dmx_senders.py, `DMXSender.blackout` / `send`)

`blackout` (lines 70-74) zeroes the frame under the lock and then calls
`self.send()`. `send` in each concrete sender emits the current frame to
the wire only when the sender is active (`ArtNetSender.send`,
`E131Sender.send`: `if self._active and ...`). The wire is modelled as
the list of frames emitted so far. -/

structure SenderState where
  frame : List Int
  active : Bool
  wire : List (List Int)
deriving Repr

/-- `send`: emits the current frame when the sender is active. -/
def send (s : SenderState) : SenderState :=
  if s.active then { s with wire := s.wire ++ [s.frame] } else s

/-- `DMXSender.blackout` (lines 70-74): `self.universe_data = [0] * 512`
followed by `self.send()`. -/
def blackout (s : SenderState) : SenderState :=
  send { s with frame := List.replicate 512 0 }

/-- C2 counterexample: on an active sender with an empty wire log,
`blackout` emits a frame (the wire grows), refuting "no send is performed
by blackout": the method body ends in `self.send()`. -/
theorem blackout_emits_counterexample :
    (blackout ⟨initFrame, true, []⟩).wire ≠ ([] : List (List Int)) :=
  List.cons_ne_nil _ _

/-- C2 amended: `blackout` rewrites all 512 channels to zero and then
itself calls `send`, so on an active sender exactly one all-zero frame is
emitted (none on an inactive sender). -/
theorem blackout_zeroes_and_sends (s : SenderState) :
    (blackout s).frame = List.replicate 512 0 ∧
    (blackout s).wire =
      (if s.active then s.wire ++ [List.replicate 512 0] else s.wire) := by
  rcases s with ⟨f, a, w⟩
  cases a
  · exact ⟨rfl, rfl⟩
  · exact ⟨rfl, rfl⟩

/-! ## Python dict model

Python `dict`s over `int` keys are modelled as ordered association lists:
assignment updates an existing key in place, otherwise appends; lookup
returns the stored value. -/

/-- `d[k] = v` on a Python dict. -/
def dictInsert (k v : Int) : List (Int × Int) → List (Int × Int)
  | [] => [(k, v)]
  | (k', v') :: rest =>
      if k' = k then (k, v) :: rest else (k', v') :: dictInsert k v rest

/-- `d.get(k)` / `d[k]` on a Python dict. -/
def dictLookup (k : Int) : List (Int × Int) → Option Int
  | [] => none
  | (k', v') :: rest => if k' = k then some v' else dictLookup k rest

lemma dictLookup_dictInsert (k k' v : Int) (d : List (Int × Int)) :
    dictLookup k (dictInsert k' v d) =
      if k' = k then some v else dictLookup k d := by
  induction d with
  | nil => simp [dictInsert, dictLookup]
  | cons p rest ih =>
      rcases p with ⟨k₀, v₀⟩
      by_cases h0 : k₀ = k'
      · subst h0
        by_cases hk : k₀ = k <;> simp [dictInsert, dictLookup, hk]
      · by_cases hk : k₀ = k
        · subst hk
          have h' : ¬ k' = k₀ := fun h => h0 h.symm
          simp [dictInsert, dictLookup, h0, h']
        · simp [dictInsert, dictLookup, h0, hk, ih]

/-! ## Follower resolver (main.py, `apply_follower_channels`, lines 2276-2287)

```
def apply_follower_channels(self, channels):
    if not self.dmx_followers_settings.get('enabled', False):
        return channels
    mappings = self.dmx_followers_settings.get('mappings', {})
    updated = dict(channels)
    for src, followers in mappings.items():
        src = int(src)
        if src in channels:
            for follower in followers:
                updated[int(follower)] = channels[src]
    return updated
```
The `enabled` flag and the mappings dict (iterated in insertion order)
are passed as parameters. -/

def apply_follower_channels (enabled : Bool) (mappings : List (Int × List Int))
    (channels : List (Int × Int)) : List (Int × Int) :=
  if enabled then
    mappings.foldl (fun updated m =>
      match dictLookup m.1 channels with
      | some v => m.2.foldl (fun u f => dictInsert f v u) updated
      | none => updated) channels
  else channels

/-- Writing one source's value to all its followers: the key is mapped to
the written value iff it is a follower, otherwise it keeps its binding. -/
lemma dictLookup_followers_foldl (fs : List Int) (v k : Int) (u : List (Int × Int)) :
    dictLookup k (fs.foldl (fun u f => dictInsert f v u) u) =
      if k ∈ fs then some v else dictLookup k u := by
  induction fs generalizing u with
  | nil => simp
  | cons f rest ih =>
      have hstep : (f :: rest).foldl (fun u f => dictInsert f v u) u =
          rest.foldl (fun u f => dictInsert f v u) (dictInsert f v u) := rfl
      rw [hstep, ih]
      by_cases hr : k ∈ rest
      · simp [hr]
      · by_cases hf : f = k
        · subst hf
          simp [hr, dictLookup_dictInsert]
        · have : ¬ k ∈ f :: rest := by
            intro h
            rcases List.mem_cons.mp h with h | h
            · exact hf h.symm
            · exact hr h
          simp [hr, this, dictLookup_dictInsert, hf]

/-- One step of the outer fold over the follower mappings. -/
def followerStep (channels : List (Int × Int))
    (updated : List (Int × Int)) (m : Int × List Int) : List (Int × Int) :=
  match dictLookup m.1 channels with
  | some v => m.2.foldl (fun u f => dictInsert f v u) updated
  | none => updated

lemma apply_follower_channels_eq_foldl (mappings : List (Int × List Int))
    (channels : List (Int × Int)) :
    apply_follower_channels true mappings channels =
      mappings.foldl (followerStep channels) channels := rfl

lemma dictLookup_followerStep (channels u : List (Int × Int)) (m : Int × List Int) (k : Int) :
    dictLookup k (followerStep channels u m) =
      match dictLookup m.1 channels with
      | some v => if k ∈ m.2 then some v else dictLookup k u
      | none => dictLookup k u := by
  unfold followerStep
  cases dictLookup m.1 channels with
  | none => rfl
  | some v => simp [dictLookup_followers_foldl]

/-- Keys never disappear during the outer fold. -/
lemma followerFold_keys (ms : List (Int × List Int)) (channels u : List (Int × Int)) (k : Int)
    (h : (dictLookup k u).isSome) :
    (dictLookup k (ms.foldl (followerStep channels) u)).isSome := by
  induction ms generalizing u with
  | nil => simpa using h
  | cons m rest ih =>
      have hstep : (m :: rest).foldl (followerStep channels) u =
          rest.foldl (followerStep channels) (followerStep channels u m) := rfl
      rw [hstep]
      refine ih _ ?_
      rw [dictLookup_followerStep]
      cases hm : dictLookup m.1 channels with
      | none => simpa using h
      | some v =>
          by_cases hk : k ∈ m.2 <;> simp [hk, h]

/-- Provenance: every binding of the fold's result either survives from
the accumulator or was copied from the original input at some source. -/
lemma followerFold_provenance (ms : List (Int × List Int)) (channels : List (Int × Int))
    (mappings : List (Int × List Int)) (hsub : ∀ m ∈ ms, m ∈ mappings)
    (u : List (Int × Int)) (k : Int)
    (h : dictLookup k u = dictLookup k channels ∨
      ∃ src fs, (src, fs) ∈ mappings ∧ k ∈ fs ∧
        dictLookup k u = dictLookup src channels ∧ (dictLookup src channels).isSome) :
    dictLookup k (ms.foldl (followerStep channels) u) = dictLookup k channels ∨
      ∃ src fs, (src, fs) ∈ mappings ∧ k ∈ fs ∧
        dictLookup k (ms.foldl (followerStep channels) u) = dictLookup src channels ∧
        (dictLookup src channels).isSome := by
  induction ms generalizing u with
  | nil => simpa using h
  | cons m rest ih =>
      have hstep : (m :: rest).foldl (followerStep channels) u =
          rest.foldl (followerStep channels) (followerStep channels u m) := rfl
      rw [hstep]
      refine ih (fun x hx => hsub x (List.mem_cons_of_mem m hx)) _ ?_
      rw [dictLookup_followerStep]
      cases hm : dictLookup m.1 channels with
      | none => exact h
      | some v =>
          by_cases hk : k ∈ m.2
          · right
            refine ⟨m.1, m.2, hsub m (List.mem_cons_self m rest), hk, ?_, ?_⟩
            · simp [hk, hm]
            · simp [hm]
          · simpa [hk] using h

/-- If no mapping in `ms` both has a present source and lists `k` as a
follower, the fold leaves the binding of `k` alone. -/
lemma followerFold_untouched (ms : List (Int × List Int)) (channels u : List (Int × Int))
    (k : Int)
    (h : ∀ m ∈ ms, (dictLookup m.1 channels).isSome → k ∉ m.2) :
    dictLookup k (ms.foldl (followerStep channels) u) = dictLookup k u := by
  induction ms generalizing u with
  | nil => rfl
  | cons m rest ih =>
      have hstep : (m :: rest).foldl (followerStep channels) u =
          rest.foldl (followerStep channels) (followerStep channels u m) := rfl
      rw [hstep, ih _ (fun x hx => h x (List.mem_cons_of_mem m hx)),
        dictLookup_followerStep]
      cases hm : dictLookup m.1 channels with
      | none => rfl
      | some v =>
          have : k ∉ m.2 := h m (List.mem_cons_self m rest) (by simp [hm])
          simp [this]

/-- C3 counterexample: with followers enabled, mapping 1 → [2] and input
{1: 9, 2: 5}, the resolver overwrites the input's binding 2 ↦ 5 with 9;
the output does not contain every key/value pair of the input. -/
theorem follower_resolver_overwrites_counterexample :
    dictLookup 2 (apply_follower_channels true [(1, [2])] [(1, 9), (2, 5)]) = some 9 ∧
    dictLookup 2 ([((1 : Int), (9 : Int)), (2, 5)]) = some 5 ∧
    some (9 : Int) ≠ some (5 : Int) := by
  refine ⟨by decide, by decide, by decide⟩

/-- C3 amended: the resolver's output always keeps every *key* of the
input (but a follower key's value may be overwritten); with followers
disabled it is the identity; every output binding is either the input's
own binding or a copy of the input's value at a source channel whose
follower list contains the key — values are read from the original input
only, so resolution is not transitive; and a follower of a source present
in the input receives that source's input value whenever no later mapping
(with a present source) also lists it. -/
theorem follower_resolver_spec (mappings : List (Int × List Int))
    (channels : List (Int × Int)) :
    (apply_follower_channels false mappings channels = channels) ∧
    (∀ k, (dictLookup k channels).isSome →
      (dictLookup k (apply_follower_channels true mappings channels)).isSome) ∧
    (∀ k, dictLookup k (apply_follower_channels true mappings channels) =
        dictLookup k channels ∨
      ∃ src fs, (src, fs) ∈ mappings ∧ k ∈ fs ∧
        dictLookup k (apply_follower_channels true mappings channels) =
          dictLookup src channels ∧ (dictLookup src channels).isSome) ∧
    (∀ pre src fs post v f, mappings = pre ++ (src, fs) :: post →
      dictLookup src channels = some v → f ∈ fs →
      (∀ m ∈ post, (dictLookup m.1 channels).isSome → f ∉ m.2) →
      dictLookup f (apply_follower_channels true mappings channels) = some v) := by
  refine ⟨rfl, ?_, ?_, ?_⟩
  · intro k hk
    rw [apply_follower_channels_eq_foldl]
    exact followerFold_keys mappings channels channels k hk
  · intro k
    rw [apply_follower_channels_eq_foldl]
    exact followerFold_provenance mappings channels mappings (fun m hm => hm)
      channels k (Or.inl rfl)
  · intro pre src fs post v f hsplit hsrc hf hpost
    rw [apply_follower_channels_eq_foldl, hsplit, List.foldl_append]
    have hcons : ((src, fs) :: post).foldl (followerStep channels)
        (pre.foldl (followerStep channels) channels) =
        post.foldl (followerStep channels)
          (followerStep channels (pre.foldl (followerStep channels) channels) (src, fs)) := rfl
    rw [hcons, followerFold_untouched post channels _ f hpost, dictLookup_followerStep]
    simp [hsrc, hf]

/-- Witness for `follower_resolver_spec` at concrete inputs: with mapping
1 → [2, 3] and input {1: 200}, followers 2 and 3 both receive 200, key 1
survives, and the disabled resolver is the identity. -/
theorem follower_resolver_spec_witness :
    apply_follower_channels false [(1, [2, 3])] [(1, 200)] = [(1, 200)] ∧
    (dictLookup 1 (apply_follower_channels true [(1, [2, 3])] [(1, 200)])).isSome ∧
    dictLookup 2 (apply_follower_channels true [(1, [2, 3])] [(1, 200)]) = some 200 ∧
    dictLookup 3 (apply_follower_channels true [(1, [2, 3])] [(1, 200)]) = some 200 := by
  have h := follower_resolver_spec [(1, [2, 3])] [(1, 200)]
  refine ⟨h.1, h.2.1 1 (by decide), ?_, ?_⟩
  · exact h.2.2.2 [] 1 [2, 3] [] 200 2 rfl (by decide) (by decide) (by intro m hm; cases hm)
  · exact h.2.2.2 [] 1 [2, 3] [] 200 3 rfl (by decide) (by decide) (by intro m hm; cases hm)

/-! ## Expression evaluator (main.py, class ProgrammableSceneEvaluator)

`evaluate_expression` (lines 92-131) runs Python `eval` on the expression
inside a `try`, then post-processes the result. The `eval` call itself is
modelled as an oracle outcome: it either raises (any exception, including
an index error on a short tuple, lands in the `except` branch), or
produces a scalar number, or produces a tuple of numbers. The
post-processing is translated below. -/

/-- Python `round(x)`: round half to even. -/
def pyRound (q : Rat) : Int :=
  let f := ⌊q⌋
  let r := q - f
  if r < 1 / 2 then f
  else if 1 / 2 < r then f + 1
  else if f % 2 = 0 then f else f + 1

/-- `max(0, min(255, n))`. -/
def clamp255 (n : Int) : Int := max 0 (min 255 n)

/-- Outcome of the `eval(...)` call in `evaluate_expression`: an
exception, a scalar numeric result, or a tuple of numbers (as produced by
`hsv_to_rgb` or a tuple literal). -/
inductive EvalOutcome where
  | err
  | num (q : Rat)
  | tup (xs : List Rat)
deriving Repr

/-- `ProgrammableSceneEvaluator.evaluate_expression` (lines 92-131)
post-processing: a tuple result selects R/G/B by channel 7/8/9 (anything
else gives 0, and an out-of-range component access raises, landing in the
`except` branch, giving 0); a scalar is rounded and clamped to [0,255];
an evaluation failure gives 0. -/
def evaluate_expression (outcome : EvalOutcome) (channel : Int) : Int :=
  match outcome with
  | .err => 0
  | .tup xs =>
      if channel = 7 then
        match xs[0]? with
        | some q => clamp255 (pyRound q)
        | none => 0
      else if channel = 8 then
        match xs[1]? with
        | some q => clamp255 (pyRound q)
        | none => 0
      else if channel = 9 then
        match xs[2]? with
        | some q => clamp255 (pyRound q)
        | none => 0
      else 0
  | .num q => clamp255 (pyRound q)

lemma clamp255_bounds (n : Int) : 0 ≤ clamp255 n ∧ clamp255 n ≤ 255 := by
  unfold clamp255
  constructor
  · exact le_max_left 0 _
  · rcases max_choice 0 (min 255 n) with h | h
    · rw [h]; norm_num
    · rw [h]; exact min_le_left 255 n

lemma tupleComponent_bounds (o : Option Rat) :
    0 ≤ (match o with | some q => clamp255 (pyRound q) | none => (0 : Int)) ∧
      (match o with | some q => clamp255 (pyRound q) | none => (0 : Int)) ≤ 255 := by
  cases o with
  | none => exact ⟨le_refl 0, by norm_num⟩
  | some q => exact clamp255_bounds (pyRound q)

/-- C4: for every evaluation outcome and channel, `evaluate_expression`
returns an integer in [0,255]; a tuple result is dispatched by the legacy
rule (channel 7 → component 0, 8 → 1, 9 → 2, any other channel → 0), a
scalar result is rounded to the nearest integer and clamped to [0,255],
and an evaluation failure yields 0. -/
theorem evaluate_expression_spec (outcome : EvalOutcome) (channel : Int) :
    (0 ≤ evaluate_expression outcome channel ∧
      evaluate_expression outcome channel ≤ 255) ∧
    (evaluate_expression .err channel = 0) ∧
    (∀ xs, channel ≠ 7 → channel ≠ 8 → channel ≠ 9 →
      evaluate_expression (.tup xs) channel = 0) ∧
    (∀ xs q, xs[0]? = some q →
      evaluate_expression (.tup xs) 7 = clamp255 (pyRound q)) ∧
    (∀ xs q, xs[1]? = some q →
      evaluate_expression (.tup xs) 8 = clamp255 (pyRound q)) ∧
    (∀ xs q, xs[2]? = some q →
      evaluate_expression (.tup xs) 9 = clamp255 (pyRound q)) ∧
    (∀ q, evaluate_expression (.num q) channel = clamp255 (pyRound q)) := by
  refine ⟨?_, rfl, ?_, ?_, ?_, ?_, fun q => rfl⟩
  · cases outcome with
    | err => exact ⟨le_refl 0, by show (0 : Int) ≤ 255; norm_num⟩
    | num q => exact clamp255_bounds (pyRound q)
    | tup xs =>
        show 0 ≤ evaluate_expression (.tup xs) channel ∧
          evaluate_expression (.tup xs) channel ≤ 255
        unfold evaluate_expression
        split_ifs
        · exact tupleComponent_bounds xs[0]?
        · exact tupleComponent_bounds xs[1]?
        · exact tupleComponent_bounds xs[2]?
        · exact ⟨le_refl 0, by show (0 : Int) ≤ 255; norm_num⟩
  · intro xs h7 h8 h9
    simp [evaluate_expression, h7, h8, h9]
  · intro xs q hq
    simp [evaluate_expression, hq]
  · intro xs q hq
    simp [evaluate_expression, hq]
  · intro xs q hq
    simp [evaluate_expression, hq]

/-- Witness for `evaluate_expression_spec` at concrete inputs: the tuple
(255, 128, 0) read on channels 7 and 1, and the scalar 300.6 clamped. -/
theorem evaluate_expression_spec_witness :
    evaluate_expression (.tup [255, 128, 0]) 7 = 255 ∧
    evaluate_expression (.tup [255, 128, 0]) 1 = 0 ∧
    evaluate_expression (.num (300 + 6 / 10)) 5 = 255 ∧
    evaluate_expression .err 3 = 0 := by
  have h7 := (evaluate_expression_spec (.tup [255, 128, 0]) 7).2.2.2.1
    [255, 128, 0] 255 rfl
  have h1 := (evaluate_expression_spec (.tup [255, 128, 0]) 1).2.2.1
    [255, 128, 0] (by decide) (by decide) (by decide)
  have hnum := (evaluate_expression_spec (.num (300 + 6 / 10)) 5).2.2.2.2.2.2
    (300 + 6 / 10)
  have herr := (evaluate_expression_spec .err 3).2.1
  refine ⟨?_, h1, ?_, herr⟩
  · rw [h7]; norm_num [pyRound, clamp255]
  · rw [hnum]; norm_num [pyRound, clamp255]

/-! ## HSV → RGB helper (main.py, `ProgrammableSceneEvaluator.hsv_to_rgb`,
lines 52-75)

Python `%` on numbers returns a result with the sign of the divisor,
i.e. `a % b = a - b * floor(a / b)`, and `int()` truncates toward zero. -/

/-- Python `a % b` on numbers. -/
def pymod (a b : Rat) : Rat := a - b * ⌊a / b⌋

/-- Python `int(x)`: truncation toward zero. -/
def pyInt (q : Rat) : Int := if 0 ≤ q then ⌊q⌋ else -⌊-q⌋

/-- The 60-degree sector selection of `hsv_to_rgb` (the `if/elif` chain of
lines 62-73), returning the un-shifted `(r, g, b)` triple. -/
def hsvSector (h c x : Rat) : Rat × Rat × Rat :=
  if 0 ≤ h ∧ h < 60 then (c, x, 0)
  else if 60 ≤ h ∧ h < 120 then (x, c, 0)
  else if 120 ≤ h ∧ h < 180 then (0, c, x)
  else if 180 ≤ h ∧ h < 240 then (0, x, c)
  else if 240 ≤ h ∧ h < 300 then (x, 0, c)
  else (c, 0, x)

/-- `ProgrammableSceneEvaluator.hsv_to_rgb` (lines 52-75). -/
def hsv_to_rgb (h s v : Rat) : Int × Int × Int :=
  let h' := pymod h 360
  let s' := max 0 (min 1 s)
  let v' := max 0 (min 1 v)
  let c := v' * s'
  let x := c * (1 - |pymod (h' / 60) 2 - 1|)
  let m := v' - c
  let rgb := hsvSector h' c x
  (pyInt ((rgb.1 + m) * 255), pyInt ((rgb.2.1 + m) * 255), pyInt ((rgb.2.2 + m) * 255))

lemma pymod_nonneg (a b : Rat) (hb : 0 < b) : 0 ≤ pymod a b := by
  unfold pymod
  have h1 : (⌊a / b⌋ : Rat) ≤ a / b := Int.floor_le (a / b)
  have h2 : b * (⌊a / b⌋ : Rat) ≤ b * (a / b) :=
    mul_le_mul_of_nonneg_left h1 (le_of_lt hb)
  have h3 : b * (a / b) = a := by field_simp
  linarith

lemma pymod_lt (a b : Rat) (hb : 0 < b) : pymod a b < b := by
  unfold pymod
  have h1 : a / b < ⌊a / b⌋ + 1 := Int.lt_floor_add_one (a / b)
  have h2 : b * (a / b) < b * ((⌊a / b⌋ : Rat) + 1) :=
    (mul_lt_mul_left hb).mpr h1
  have h3 : b * (a / b) = a := by field_simp
  nlinarith

lemma clamp01_bounds (s : Rat) : 0 ≤ max 0 (min 1 s) ∧ max 0 (min 1 s) ≤ 1 := by
  constructor
  · exact le_max_left 0 _
  · rcases max_choice (0 : Rat) (min 1 s) with h | h
    · rw [h]; norm_num
    · rw [h]; exact min_le_left 1 s

lemma pyInt_scaled_bounds (y : Rat) (h0 : 0 ≤ y) (h1 : y ≤ 1) :
    0 ≤ pyInt (y * 255) ∧ pyInt (y * 255) ≤ 255 := by
  have hy0 : (0 : Rat) ≤ y * 255 := by positivity
  have hy1 : y * 255 ≤ 255 := by nlinarith
  unfold pyInt
  rw [if_pos hy0]
  constructor
  · exact Int.le_floor.mpr (by exact_mod_cast hy0)
  · have : ⌊y * 255⌋ ≤ ⌊(255 : Rat)⌋ := Int.floor_le_floor hy1
    simpa using this

lemma hsvSector_cases (h c x : Rat) :
    ((hsvSector h c x).1 = 0 ∨ (hsvSector h c x).1 = x ∨ (hsvSector h c x).1 = c) ∧
    ((hsvSector h c x).2.1 = 0 ∨ (hsvSector h c x).2.1 = x ∨ (hsvSector h c x).2.1 = c) ∧
    ((hsvSector h c x).2.2 = 0 ∨ (hsvSector h c x).2.2 = x ∨ (hsvSector h c x).2.2 = c) := by
  unfold hsvSector
  split_ifs <;> simp

/-- C5: `hsv_to_rgb` wraps `h` modulo 360 into [0,360), clamps `s` and
`v` to [0,1], and each of the three returned integers lies in [0,255];
the components are produced by the standard sector formula
(`c = v·s`, `x = c·(1 − |((h/60) mod 2) − 1|)`, `m = v − c`, sector by
60-degree ranges of the wrapped hue). -/
theorem hsv_to_rgb_spec (h s v : Rat) :
    (0 ≤ pymod h 360 ∧ pymod h 360 < 360) ∧
    (0 ≤ max 0 (min 1 s) ∧ max 0 (min 1 s) ≤ 1) ∧
    (0 ≤ max 0 (min 1 v) ∧ max 0 (min 1 v) ≤ 1) ∧
    (0 ≤ (hsv_to_rgb h s v).1 ∧ (hsv_to_rgb h s v).1 ≤ 255) ∧
    (0 ≤ (hsv_to_rgb h s v).2.1 ∧ (hsv_to_rgb h s v).2.1 ≤ 255) ∧
    (0 ≤ (hsv_to_rgb h s v).2.2 ∧ (hsv_to_rgb h s v).2.2 ≤ 255) := by
  refine ⟨⟨pymod_nonneg h 360 (by norm_num), pymod_lt h 360 (by norm_num)⟩,
    clamp01_bounds s, clamp01_bounds v, ?_, ?_, ?_⟩ <;>
  · show 0 ≤ pyInt _ ∧ pyInt _ ≤ 255
    set h' := pymod h 360 with hh'
    set s' := max 0 (min 1 s) with hs'
    set v' := max 0 (min 1 v) with hv'
    set c := v' * s' with hc
    set x := c * (1 - |pymod (h' / 60) 2 - 1|) with hx
    set m := v' - c with hm
    have hs0 := (clamp01_bounds s).1
    have hs1 := (clamp01_bounds s).2
    have hv0 := (clamp01_bounds v).1
    have hv1 := (clamp01_bounds v).2
    have hc0 : 0 ≤ c := mul_nonneg hv0 hs0
    have hcv : c ≤ v' := by
      calc c = v' * s' := rfl
        _ ≤ v' * 1 := mul_le_mul_of_nonneg_left hs1 hv0
        _ = v' := mul_one v'
    have habs : |pymod (h' / 60) 2 - 1| ≤ 1 := by
      have ht0 : 0 ≤ pymod (h' / 60) 2 := pymod_nonneg _ 2 (by norm_num)
      have ht2 : pymod (h' / 60) 2 < 2 := pymod_lt _ 2 (by norm_num)
      rw [abs_le]
      constructor <;> linarith
    have habs0 : 0 ≤ 1 - |pymod (h' / 60) 2 - 1| := by linarith
    have hx0 : 0 ≤ x := mul_nonneg hc0 habs0
    have hxc : x ≤ c := by
      have h1 : 1 - |pymod (h' / 60) 2 - 1| ≤ 1 :=
        sub_le_self 1 (abs_nonneg _)
      calc x = c * (1 - |pymod (h' / 60) 2 - 1|) := rfl
        _ ≤ c * 1 := mul_le_mul_of_nonneg_left h1 hc0
        _ = c := mul_one c
    have hm0 : 0 ≤ m := by
      show 0 ≤ v' - c
      linarith
    have hcm : c + m ≤ 1 := by
      show c + (v' - c) ≤ 1
      linarith
    have hcomp : ∀ comp : Rat, comp = 0 ∨ comp = x ∨ comp = c →
        0 ≤ pyInt ((comp + m) * 255) ∧ pyInt ((comp + m) * 255) ≤ 255 := by
      intro comp hmem
      have h0 : 0 ≤ comp + m := by
        rcases hmem with rfl | rfl | rfl <;> linarith
      have h1 : comp + m ≤ 1 := by
        rcases hmem with rfl | rfl | rfl <;> linarith
      exact pyInt_scaled_bounds (comp + m) h0 h1
    first
      | exact hcomp _ (hsvSector_cases h' c x).1
      | exact hcomp _ (hsvSector_cases h' c x).2.1
      | exact hcomp _ (hsvSector_cases h' c x).2.2

/-! ## Scene play and scene fallback (main.py)

`trigger_scene_fallback` (lines 1631-1667): returns without scheduling
when the `scene_fallback` config is not enabled or has no `scene_id`;
otherwise arms a timer that plays the configured scene when it exists in
the configuration. `play_scene` (lines 1992-2034): looks the scene up,
derives the channel map from the non-null slots, commits it through the
follower resolver, and then calls `trigger_scene_fallback(scene_name)`
unconditionally — there is no parameter distinguishing a call made from a
sequence step. `play_sequence` (lines 2083-2094) plays a scene-ref step
by calling `self.play_scene(scene_name)` when the scene exists. -/

structure SceneFallbackCfg where
  enabled : Bool
  scene_id : Option String
deriving Repr, DecidableEq

/-- Lookup by name in an ordered name→value table (Python dict). -/
def lookupByName {α : Type} (k : String) : List (String × α) → Option α
  | [] => none
  | (k', v) :: rest => if k' = k then some v else lookupByName k rest

/-- `trigger_scene_fallback` (lines 1631-1667), as the scene play it
eventually causes: `none` when disabled, when no `scene_id` is configured
(a missing or empty id is falsy), or when the configured scene does not
exist. -/
def trigger_scene_fallback (cfg : SceneFallbackCfg) (sceneNames : List String) :
    Option String :=
  if cfg.enabled then
    match cfg.scene_id with
    | some id => if id ∈ sceneNames then some id else none
    | none => none
  else none

/-- `play_scene`'s channel map (lines 2019-2023): non-null slots become
1-based channel→value pairs. -/
def scene_channels (data : List (Option Int)) : List (Int × Int) :=
  data.enum.filterMap fun p => p.2.map fun v => ((p.1 : Int) + 1, v)

/-- `play_scene` (lines 1992-2034): `none` when the scene is unknown;
otherwise the committed channel map together with the scene play
scheduled by the unconditional `trigger_scene_fallback(scene_name)` call
at line 2032. -/
def play_scene (cfg : SceneFallbackCfg) (scenes : List (String × List (Option Int)))
    (name : String) : Option (List (Int × Int) × Option String) :=
  match lookupByName name scenes with
  | some data => some (scene_channels data, trigger_scene_fallback cfg (scenes.map (·.1)))
  | none => none

/-- The scene-fallback play caused by one scene-ref sequence step
(`play_sequence`, lines 2083-2094): the step calls `play_scene` when the
scene exists. -/
def sequence_step_fallback (cfg : SceneFallbackCfg)
    (scenes : List (String × List (Option Int))) (name : String) : Option String :=
  if name ∈ scenes.map (·.1) then
    match play_scene cfg scenes name with
    | some (_, fb) => fb
    | none => none
  else none

lemma lookupByName_isSome_of_mem {α : Type} (k : String) (l : List (String × α))
    (h : k ∈ l.map (·.1)) : (lookupByName k l).isSome := by
  induction l with
  | nil => simp at h
  | cons p rest ih =>
      rcases p with ⟨k', v⟩
      by_cases hk : k' = k
      · simp [lookupByName, hk]
      · have : k ∈ rest.map (·.1) := by
          rcases List.mem_map.mp h with ⟨q, hq, hq1⟩
          rcases List.mem_cons.mp hq with rfl | hq'
          · exact absurd hq1 hk
          · exact List.mem_map.mpr ⟨q, hq', hq1⟩
        simp [lookupByName, hk, ih this]

/-- C6 counterexample: with scene fallback enabled and configured to
scene "fb", a sequence step that plays scene "s" does fire the scene
fallback — `play_scene` carries no from-sequence tag. -/
theorem sequence_step_fires_fallback_counterexample :
    sequence_step_fallback ⟨true, some "fb"⟩ [("fb", []), ("s", [])] "s" = some "fb" ∧
    some "fb" ≠ (none : Option String) := by
  exact ⟨rfl, by simp⟩

/-- C6 amended: a scene-ref step of a sequence fires the scene fallback
under exactly the same conditions as a direct `play_scene` call — the
code tags nothing as coming from a sequence, so the fallback decision is
`trigger_scene_fallback` either way. -/
theorem sequence_step_fallback_eq_play_scene (cfg : SceneFallbackCfg)
    (scenes : List (String × List (Option Int))) (name : String)
    (h : name ∈ scenes.map (·.1)) :
    sequence_step_fallback cfg scenes name =
      trigger_scene_fallback cfg (scenes.map (·.1)) := by
  unfold sequence_step_fallback play_scene
  rw [if_pos h]
  cases hl : lookupByName name scenes with
  | none =>
      exact absurd (lookupByName_isSome_of_mem name scenes h) (by simp [hl])
  | some data => rfl

/-- Witness for `sequence_step_fallback_eq_play_scene` at a concrete
configuration. -/
theorem sequence_step_fallback_eq_play_scene_witness :
    sequence_step_fallback ⟨true, some "fb"⟩ [("fb", []), ("s", [])] "s" =
      trigger_scene_fallback ⟨true, some "fb"⟩ ["fb", "s"] ∧
    trigger_scene_fallback ⟨true, some "fb"⟩ ["fb", "s"] = some "fb" := by
  refine ⟨?_, rfl⟩
  have h := sequence_step_fallback_eq_play_scene ⟨true, some "fb"⟩
    [("fb", []), ("s", [])] "s" (by simp)
  simpa using h

/-- C7: playing the configured fallback scene itself schedules the scene
fallback again — `play_scene` (line 2032) calls `trigger_scene_fallback`
unconditionally, so with scene fallback enabled and an existing fallback
scene the chain of fallback-triggered plays never terminates. Evaluated
at the failing input: fallback scene "fb", enabled. -/
theorem scene_fallback_refires :
    play_scene ⟨true, some "fb"⟩ [("fb", [])] "fb" = some ([], some "fb") := rfl

/-! ## Sequence step dwell time (main.py, `play_sequence`, lines 2083-2128)

A step duration is a Python number: `int` or `float`. The scene-ref
branch (lines 2086-2088) does
`duration = step.get('duration', default_duration)` followed by
`if isinstance(duration, int): duration = duration / 1000.0`;
the direct-DMX branch (line 2111) only does
`duration = step.get('duration', default_duration)` and uses the value
as seconds unchanged. `default_duration` is
`sequences_config.get('default_duration', 1.0)` (line 2041), a float 1.0
when unconfigured. -/

/-- A Python number: `int` or `float`. -/
inductive PyNum where
  | int (n : Int)
  | float (q : Rat)
deriving Repr, DecidableEq

/-- A Python number used directly as a count of seconds. -/
def pynumSeconds : PyNum → Rat
  | .int n => n
  | .float q => q

/-- The dwell time (in seconds) `play_sequence` computes for one step:
`isSceneRef` selects the scene-ref branch (lines 2086-2088) or the
direct-DMX branch (line 2111). -/
def stepDwell (isSceneRef : Bool) (dur : Option PyNum) (defaultDur : PyNum) : Rat :=
  let d := dur.getD defaultDur
  if isSceneRef then
    match d with
    | .int n => (n : Rat) / 1000
    | .float q => q
  else pynumSeconds d

/-- The dwell time the claim describes, uniform for every step kind:
int → milliseconds (divide by 1000), float → seconds, missing → 1.0 s. -/
def claimedDwell (dur : Option PyNum) : Rat :=
  match dur.getD (.float 1) with
  | .int n => (n : Rat) / 1000
  | .float q => q

/-- C8 counterexample: a direct DMX step with integer duration 2000 dwells
for 2000 seconds — the code divides an integer duration by 1000 only in
the scene-ref branch, while the claim's uniform rule would give 2 s. -/
theorem stepDwell_not_uniform_counterexample :
    stepDwell false (some (.int 2000)) (.float 1) = 2000 ∧
    claimedDwell (some (.int 2000)) = 2 ∧
    (2000 : Rat) ≠ 2 := by
  refine ⟨rfl, by norm_num [claimedDwell], by norm_num⟩

/-- C8 amended: the scene-ref branch divides an integer duration by 1000
(milliseconds) and takes a float duration as seconds; the direct-DMX
branch uses the duration value as seconds unchanged, whatever its type;
a missing duration defaults to the configured default duration (the
float 1.0 when the configuration does not set one), and the two branches
agree on float durations. -/
theorem stepDwell_spec (dur : Option PyNum) (defaultDur : PyNum) :
    (∀ n : Int, dur = some (.int n) → stepDwell true dur defaultDur = (n : Rat) / 1000) ∧
    (∀ q : Rat, dur = some (.float q) → stepDwell true dur defaultDur = q) ∧
    (stepDwell false dur defaultDur = pynumSeconds (dur.getD defaultDur)) ∧
    (stepDwell true none (.float 1) = 1 ∧ stepDwell false none (.float 1) = 1) ∧
    (∀ q : Rat, stepDwell true (some (.float q)) defaultDur =
      stepDwell false (some (.float q)) defaultDur) := by
  refine ⟨?_, ?_, rfl, ⟨rfl, rfl⟩, fun q => rfl⟩
  · intro n hd; subst hd; rfl
  · intro q hd; subst hd; rfl

/-- Witness for `stepDwell_spec` at concrete inputs: an int 2000 ms
scene-ref step dwells 2 s, a float 0.5 step dwells 0.5 s in both
branches. -/
theorem stepDwell_spec_witness :
    stepDwell true (some (.int 2000)) (.float 1) = 2 ∧
    stepDwell true (some (.float (1 / 2))) (.float 1) =
      stepDwell false (some (.float (1 / 2))) (.float 1) := by
  have h := stepDwell_spec (some (.int 2000)) (.float 1)
  have h1 := h.1 2000 rfl
  have h2 := (stepDwell_spec (some (.float (1 / 2))) (.float 1)).2.2.2.2 (1 / 2)
  exact ⟨by rw [h1]; norm_num, h2⟩

/-! ## Bus channel set and drain-once update (main.py)

`handle_channel_control` (lines 1869-1887) parses the channel from the
topic and the value from the payload, validates `1 <= channel <= 512 and
0 <= value <= 255`, sets the channel on the DMX manager, sends, and
stores `self.last_mqtt_channel_update = {'channel': ..., 'value': ...}`;
an out-of-range message changes nothing. `get_channel_update`
(lines 1272-1292, route `GET /api/dmx/channel-update`) returns the stored
update and clears it, or returns `None` leaving the state unchanged. -/

structure BusState where
  frame : List Int
  wire : List (List Int)
  last : Option (Int × Int)
deriving Repr, DecidableEq

/-- `handle_channel_control` (lines 1869-1887) after a successful integer
parse of topic suffix and payload. -/
def handle_channel_control (s : BusState) (channel value : Int) : BusState :=
  if 1 ≤ channel ∧ channel ≤ 512 ∧ 0 ≤ value ∧ value ≤ 255 then
    let f := set_channel s.frame channel value
    { frame := f, wire := s.wire ++ [f], last := some (channel, value) }
  else s

/-- `get_channel_update` (lines 1272-1292): the returned update (None
when none is pending) together with the state after the request. -/
def get_channel_update (s : BusState) : Option (Int × Int) × BusState :=
  match s.last with
  | some u => (some u, { s with last := none })
  | none => (none, s)

/-- C9: after an accepted bus channel-set message, `GET
/api/dmx/channel-update` returns the stored `{channel, value}` update
exactly once and clears it, so an immediately following GET returns
`None`; with no pending update it returns `None` without changing state.
The accepted message also writes the channel into the frame and sends. -/
theorem channel_update_drain_once (s : BusState) (channel value : Int)
    (h : 1 ≤ channel ∧ channel ≤ 512 ∧ 0 ≤ value ∧ value ≤ 255) :
    (get_channel_update (handle_channel_control s channel value)).1 =
      some (channel, value) ∧
    (get_channel_update
      (get_channel_update (handle_channel_control s channel value)).2).1 = none ∧
    (handle_channel_control s channel value).frame =
      set_channel s.frame channel value ∧
    (∀ t : BusState, t.last = none → get_channel_update t = (none, t)) := by
  unfold handle_channel_control
  rw [if_pos h]
  refine ⟨rfl, rfl, rfl, ?_⟩
  intro t ht
  unfold get_channel_update
  rw [ht]

/-- Witness for `channel_update_drain_once`: bus message
`dmx/set/channel/5` with payload `"130"` on a fresh state. -/
theorem channel_update_drain_once_witness :
    (1 ≤ (5 : Int) ∧ (5 : Int) ≤ 512 ∧ 0 ≤ (130 : Int) ∧ (130 : Int) ≤ 255) ∧
    (get_channel_update (handle_channel_control ⟨initFrame, [], none⟩ 5 130)).1 =
      some (5, 130) ∧
    (get_channel_update
      (get_channel_update (handle_channel_control ⟨initFrame, [], none⟩ 5 130)).2).1 =
      none := by
  have h := channel_update_drain_once ⟨initFrame, [], none⟩ 5 130
    ⟨by norm_num, by norm_num, by norm_num, by norm_num⟩
  exact ⟨⟨by norm_num, by norm_num, by norm_num, by norm_num⟩, h.1, h.2.1⟩

/-! ## GET /api/scenes (main.py, `get_scenes`, lines 359-378)

For each scene the handler builds a description using
`len([c for c in channels if c > 0])`. In Python 3, `None > 0` raises a
`TypeError`, which the surrounding `try` turns into the error envelope
with status 500. Comparisons and exceptions are modelled with `Except`:
`Except.error` is the 500 error-envelope response. -/

/-- `len([c for c in channels if c > 0])`: counts slots greater than 0,
raising on the first `None` slot. -/
def countActive : List (Option Int) → Except Unit Nat
  | [] => .ok 0
  | none :: _ => .error ()
  | some v :: rest => (countActive rest).map fun n => if 0 < v then n + 1 else n

/-- One entry of the list `get_scenes` returns. -/
structure SceneEntry where
  id : String
  name : String
  channels : List (Option Int)
  activeCount : Nat
deriving Repr, DecidableEq

/-- `get_scenes` (lines 359-378): the scene list on success, the error
envelope (status 500) when any scene's active-channel count raises. -/
def get_scenes : List (String × List (Option Int)) → Except Unit (List SceneEntry)
  | [] => .ok []
  | (name, chs) :: rest =>
      match countActive chs with
      | .error e => .error e
      | .ok n => (get_scenes rest).map fun l => ⟨name, name, chs, n⟩ :: l

lemma countActive_error_iff (chs : List (Option Int)) :
    countActive chs = .error () ↔ none ∈ chs := by
  induction chs with
  | nil => simp [countActive]
  | cons c rest ih =>
      cases c with
      | none => simp [countActive]
      | some v =>
          simp only [countActive, List.mem_cons]
          constructor
          · intro h
            cases hr : countActive rest with
            | error e => exact Or.inr (ih.mp (by cases e; exact hr))
            | ok n => rw [hr] at h; simp [Except.map] at h
          · intro h
            rcases h with h | h
            · exact absurd h (by simp)
            · rw [ih.mpr h]; rfl

lemma get_scenes_ok_names (scenes : List (String × List (Option Int)))
    (h : ∀ p ∈ scenes, (none : Option Int) ∉ p.2) :
    ∃ l, get_scenes scenes = .ok l ∧ l.map (·.name) = scenes.map (·.1) := by
  induction scenes with
  | nil => exact ⟨[], rfl, rfl⟩
  | cons p rest ih =>
      rcases p with ⟨name, chs⟩
      have hchs : (none : Option Int) ∉ chs := h _ (List.mem_cons_self _ rest)
      have hca : countActive chs ≠ .error () := fun hc =>
        hchs ((countActive_error_iff chs).mp hc)
      cases hc : countActive chs with
      | error e => cases e; exact absurd hc hca
      | ok n =>
          rcases ih (fun q hq => h q (List.mem_cons_of_mem _ hq)) with ⟨l, hl, hnames⟩
          refine ⟨⟨name, name, chs, n⟩ :: l, ?_, ?_⟩
          · show (match countActive chs with
              | .error e => .error e
              | .ok n => (get_scenes rest).map fun l => ⟨name, name, chs, n⟩ :: l) =
              Except.ok (⟨name, name, chs, n⟩ :: l)
            rw [hc, hl]
            rfl
          · simpa using hnames

lemma get_scenes_error_of_null (scenes : List (String × List (Option Int)))
    (h : ∃ p ∈ scenes, (none : Option Int) ∈ p.2) :
    get_scenes scenes = .error () := by
  induction scenes with
  | nil => simp at h
  | cons p rest ih =>
      rcases p with ⟨name, chs⟩
      show (match countActive chs with
        | .error e => .error e
        | .ok n => (get_scenes rest).map fun l => ⟨name, name, chs, n⟩ :: l) =
        Except.error ()
      by_cases hchs : (none : Option Int) ∈ chs
      · rw [(countActive_error_iff chs).mpr hchs]
      · cases hc : countActive chs with
        | error e => cases e; rfl
        | ok n =>
            rcases h with ⟨q, hq, hnull⟩
            rcases List.mem_cons.mp hq with rfl | hq'
            · exact absurd hnull hchs
            · rw [ih ⟨q, hq', hnull⟩]
              rfl

/-- C10: `GET /api/scenes` fails with the error envelope (status 500)
exactly when some scene contains a null slot — the active-channel count
compares the slot against 0 and `None > 0` raises; when every slot of
every scene is an integer it returns the full list (one entry per scene,
in order). -/
theorem get_scenes_spec (scenes : List (String × List (Option Int))) :
    ((∃ p ∈ scenes, (none : Option Int) ∈ p.2) ↔ get_scenes scenes = .error ()) ∧
    ((∀ p ∈ scenes, (none : Option Int) ∉ p.2) →
      ∃ l, get_scenes scenes = .ok l ∧ l.map (·.name) = scenes.map (·.1)) := by
  constructor
  · constructor
    · exact get_scenes_error_of_null scenes
    · intro herr
      by_contra hnone
      push_neg at hnone
      rcases get_scenes_ok_names scenes hnone with ⟨l, hl, _⟩
      rw [hl] at herr
      exact absurd herr (by simp)
  · exact get_scenes_ok_names scenes

/-- Witness for `get_scenes_spec`: a configuration with a null slot
yields the error; an all-integer configuration yields the full list. -/
theorem get_scenes_spec_witness :
    get_scenes [("warm", [some 255, none]), ("cold", [some 1])] = .error () ∧
    ∃ l, get_scenes [("all", [some 255, some 0])] = .ok l ∧
      l.map (·.name) = ["all"] := by
  refine ⟨?_, ?_⟩
  · exact (get_scenes_spec [("warm", [some 255, none]), ("cold", [some 1])]).1.mp
      ⟨("warm", [some 255, none]), by simp, by simp⟩
  · exact (get_scenes_spec [("all", [some 255, some 0])]).2
      (by intro p hp; fin_cases hp; simp)

end DMXSeq
